import Mathlib

namespace SteelStratus

/-! Verification of the steelstratus.ai multi-server task-orchestration engine
    against its specification.  The agent implementation itself
    (basic-agent/agentic_agent.py) is not among the repository sources — only
    its README, configuration excerpts and interaction transcripts are — so
    the engine components below are modelled from the spec.  The website
    script (website/main.js) is present and is embedded directly from source. -/

/-- Modelled from the spec: the provider-error taxonomy of section 7 and the
transient/non-transient classification of section 4.2.  The agent source file
is missing from the repository, so the kinds are taken from the spec's words:
timeout, connection-refused and 5xx-equivalent are transient (retriable);
malformed request, 4xx-equivalent and unknown method are non-retriable;
`exhausted` is the kind reported when retries run out. -/
inductive ErrKind where
  | timeout
  | connRefused
  | serverErr
  | malformedRequest
  | clientErr
  | unknownMethod
  | exhausted
deriving DecidableEq, Repr

/-- Modelled from the spec: which error classes are transient, hence retried. -/
def ErrKind.retriable : ErrKind → Bool
  | .timeout => true
  | .connRefused => true
  | .serverErr => true
  | _ => false

/-- Outcome of one provider invocation: a result value or a ProviderError. -/
abbrev OpOutcome := Except ErrKind String

/-- Boolean success test on an operation outcome. -/
def okE {ε V : Type} : Except ε V → Bool
  | .ok _ => true
  | .error _ => false

/-- Modelled from the spec: a MemoryEntry of the data model, section 3 —
task id, summary and timestamp. -/
structure MemoryEntry where
  taskId : Nat
  summary : String
  timestamp : Nat
deriving DecidableEq, Repr

/-- Modelled from the spec: the Memory Store, section 4.5 — a fixed-capacity
ring holding entries oldest-first, with capacity `cap` (the configured
memory_size). -/
structure MemoryStore where
  cap : Nat
  entries : List MemoryEntry
deriving DecidableEq, Repr

/-- Number of entries currently held. -/
def MemoryStore.size (s : MemoryStore) : Nat := s.entries.length

/-- Modelled from the spec: `record` of section 4.5 — if the store is full the
oldest entry (the head of the insertion-ordered list) is evicted before the
new entry is appended. -/
def MemoryStore.record (s : MemoryStore) (e : MemoryEntry) : MemoryStore :=
  if s.size == s.cap then
    { s with entries := s.entries.tail ++ [e] }
  else
    { s with entries := s.entries ++ [e] }

/-- Modelled from the spec: `recent n` returns up to n entries,
most-recent-first. -/
def MemoryStore.recent (s : MemoryStore) (n : Nat) : List MemoryEntry :=
  s.entries.reverse.take n

/-- Trace of one provider call under the retry policy: the final reported
result, the number of attempts actually made, and the list of inter-attempt
delays, in order. -/
structure CallTrace (V : Type) where
  result : Except ErrKind V
  attempts : Nat
  delays : List Nat
deriving Repr

/-- Modelled from the spec: the Provider Client retry loop of section 4.2.
The agent source file is missing from the repository, so the loop follows
the spec's words: attempt `i` draws outcome `att i`; success returns at once;
a non-retriable error fails immediately; a retriable error with retries
remaining waits an exponential-backoff delay (base times two to the attempt
index) and retries; a retriable error with no retries remaining reports
`ErrKind.exhausted`.  `r` counts the retries still available. -/
def retryFrom {V : Type} (att : Nat → Except ErrKind V) (base : Nat) :
    Nat → Nat → CallTrace V
  | i, 0 =>
    match att i with
    | .ok v => ⟨.ok v, 1, []⟩
    | .error e =>
      if e.retriable then ⟨.error .exhausted, 1, []⟩ else ⟨.error e, 1, []⟩
  | i, r + 1 =>
    match att i with
    | .ok v => ⟨.ok v, 1, []⟩
    | .error e =>
      if e.retriable then
        let rest := retryFrom att base (i + 1) r
        ⟨rest.result, rest.attempts + 1, base * 2 ^ i :: rest.delays⟩
      else ⟨.error e, 1, []⟩

/-- Modelled from the spec: `call` of section 4.2 — up to `maxRetries`
retries after the first attempt, i.e. at most `maxRetries + 1` attempts. -/
def providerCall {V : Type} (att : Nat → Except ErrKind V)
    (base maxRetries : Nat) : CallTrace V :=
  retryFrom att base 0 maxRetries

/-- Modelled from the spec: an Operation of the data model, section 3 —
provider name, method name and bound parameters; immutable. -/
structure Operation where
  provider : String
  method : String
  params : List (String × String)
deriving DecidableEq, Repr

/-- Modelled from the spec: a Task's status, section 3. -/
inductive TaskStatus where
  | pending
  | running
  | completed
  | failed
deriving DecidableEq, Repr

/-- Whether a status is terminal (completed or failed). -/
def TaskStatus.isTerminal : TaskStatus → Bool
  | .completed => true
  | .failed => true
  | _ => false

/-- Modelled from the spec: a Task of the data model, section 3 — id,
description, ordered operations, per-operation results (provider name paired
with result-or-error; an operation has settled exactly when its outcome has
been recorded here) and status. -/
structure TaskRec where
  id : Nat
  description : String
  operations : List Operation
  results : List (String × OpOutcome)
  status : TaskStatus

/-- A freshly accepted task: pending, nothing settled. -/
def mkTask (id : Nat) (descr : String) (ops : List Operation) : TaskRec :=
  { id := id, description := descr, operations := ops, results := [],
    status := .pending }

/-- The Orchestrator moves an accepted pending task to running when its
dispatch begins; any other status is left untouched. -/
def startTask (t : TaskRec) : TaskRec :=
  if t.status = .pending then { t with status := .running } else t

/-- Every operation of the task has settled: an outcome is recorded for each. -/
def allSettled (t : TaskRec) : Bool :=
  t.results.length == t.operations.length

/-- Modelled from the spec: the Dispatcher's `execute`, section 4.3.  Every
operation is issued against its provider (outcome function `out`) and every
outcome — success or error — is recorded in the per-operation results; the
task is marked completed when at least one operation succeeded and failed
only when every operation errored. -/
def dispatch (out : Operation → OpOutcome) (t : TaskRec) : TaskRec :=
  { t with
    results := t.operations.map (fun o => (o.provider, out o)),
    status :=
      if t.operations.any (fun o => okE (out o)) then .completed
      else .failed }

/-- The phases in which a Task is observable outside the Dispatcher: freshly
created (pending), dispatch begun (running, no outcome yet recorded), or
settled by the Dispatcher, which records every operation's outcome before
marking the task terminal. -/
inductive TaskPhase where
  | created (id : Nat) (descr : String) (ops : List Operation)
  | started (id : Nat) (descr : String) (ops : List Operation)
  | dispatched (out : Operation → OpOutcome) (id : Nat) (descr : String)
      (ops : List Operation)

/-- The operations a phase's task carries. -/
def TaskPhase.opsOf : TaskPhase → List Operation
  | .created _ _ ops => ops
  | .started _ _ ops => ops
  | .dispatched _ _ _ ops => ops

/-- The task snapshot observable in each phase. -/
def TaskPhase.snapshot : TaskPhase → TaskRec
  | .created id d ops => mkTask id d ops
  | .started id d ops => startTask (mkTask id d ops)
  | .dispatched out id d ops => dispatch out (startTask (mkTask id d ops))

/-- The Orchestrator-level events that can touch a task after creation:
the start of its dispatch, and its settlement by the Dispatcher. -/
inductive OrchEvent where
  | start
  | settle (out : Operation → OpOutcome)

/-- Modelled from the spec: the per-task state machine of section 4.6 — the
Orchestrator starts only pending tasks and the Dispatcher settles only
running tasks; a settled (terminal) task is never re-dispatched, so events
reaching it leave it untouched. -/
def taskStep (t : TaskRec) : OrchEvent → TaskRec
  | .start => startTask t
  | .settle out => if t.status = .running then dispatch out t else t

/-- The transitions the spec permits on a task status: stay put, or follow
an edge of pending → running → {completed, failed}. -/
def allowedEdge (s s' : TaskStatus) : Prop :=
  s' = s ∨ (s = .pending ∧ s' = .running) ∨
    (s = .running ∧ (s' = .completed ∨ s' = .failed))

/-- Modelled from the spec: a Goal of the data model, section 3 —
description, priority, insertion time; advisory only. -/
structure Goal where
  description : String
  priority : Nat
  addedAt : Nat
deriving DecidableEq, Repr

/-- Modelled from the spec: the degenerate fallback Operation of section 4.4,
targeting only the generic processed post-step. -/
def processedOp : Operation :=
  { provider := "agent", method := "processed", params := [] }

/-- Whether the second character list is an initial segment of the first. -/
def charsStartWith : List Char → List Char → Bool
  | _, [] => true
  | [], _ :: _ => false
  | c :: cs, p :: ps => c == p && charsStartWith cs ps

/-- Whether the second character list occurs inside the first. -/
def charsContain : List Char → List Char → Bool
  | [], pat => charsStartWith [] pat
  | c :: cs, pat => charsStartWith (c :: cs) pat || charsContain cs pat

/-- Substring test used by the rule-based keyword matching. -/
def hasSubstr (s pat : String) : Bool := charsContain s.data pat.data

/-- Modelled from the spec: the deterministic rule table of section 4.4 and
the README transcripts — search intent maps to the web-search provider's
search method together with the code-hosting provider's repository search;
a trending request maps to the code-hosting provider; a graph request maps
to the graph provider.  An instruction matching no rule yields no
recognized operations. -/
def recognizedOps (instr : String) : List Operation :=
  let low := instr
  (if hasSubstr low "search" then
    [ { provider := "web_search", method := "search",
        params := [("query", instr)] },
      { provider := "github", method := "search_repositories",
        params := [("query", instr)] } ]
   else []) ++
  (if hasSubstr low "trending" then
    [ { provider := "github", method := "trending_repositories",
        params := [] } ]
   else []) ++
  (if hasSubstr low "graph" then
    [ { provider := "graph", method := "get_statistics", params := [] } ]
   else [])

/-- Whether some active goal mentions the given provider (read-only
inspection of goals, used to bias provider selection). -/
def goalMentions (goals : List Goal) (p : String) : Bool :=
  goals.any (fun g => hasSubstr g.description p)

/-- Modelled from the spec: the Task Planner's `plan` of section 4.4 — the
recognized operations, reordered so providers mentioned in an active goal
come first (the goal bias), followed by the generic processed post-step;
an unrecognized instruction produces the post-step alone. -/
def plan (instr : String) (goals : List Goal) : List Operation :=
  let base := recognizedOps instr
  (base.filter (fun o => goalMentions goals o.provider) ++
    base.filter (fun o => !goalMentions goals o.provider)) ++ [processedOp]

/-- Modelled from the spec: a ProviderConfig of the data model, section 3. -/
structure ProviderConfig where
  name : String
  url : String
  enabled : Bool
  timeout : Nat
  maxRetries : Nat
deriving DecidableEq, Repr

/-- Modelled from the spec: the Orchestrator's state, section 4.6 — running
flag, goals, task queue (queued task ids), provider table, memory store,
learned-patterns counter and the monotonic task-id source. -/
structure AgentState where
  running : Bool
  goals : List Goal
  taskQueue : List Nat
  providers : List ProviderConfig
  memory : MemoryStore
  learnedPatterns : Nat
  nextTaskId : Nat

/-- Modelled from the spec: the snapshot returned by `status()`,
section 4.6 — exactly the running flag, goal list, queue length, enabled
provider names, memory size and learned-patterns count. -/
structure StatusReport where
  running : Bool
  goals : List String
  taskQueueLength : Nat
  connectedServers : List String
  memorySize : Nat
  learnedPatterns : Nat
deriving DecidableEq, Repr

/-- Modelled from the spec: `status()` of section 4.6. -/
def statusSnapshot (st : AgentState) : StatusReport :=
  { running := st.running,
    goals := st.goals.map Goal.description,
    taskQueueLength := st.taskQueue.length,
    connectedServers := (st.providers.filter ProviderConfig.enabled).map
      ProviderConfig.name,
    memorySize := st.memory.size,
    learnedPatterns := st.learnedPatterns }

/-- A plan is degenerate when it is exactly the fallback post-step. -/
def isDegeneratePlan (ops : List Operation) : Bool := ops == [processedOp]

/-- Modelled from the spec: the Orchestrator's `execute(instruction)` of
section 4.6 — plan, create and dispatch the task, record a MemoryEntry
summarizing it, bump the learned-patterns counter exactly when the planner
matched a non-degenerate rule, and hand the settled task back. -/
def executeInstr (out : Operation → OpOutcome) (now : Nat) (st : AgentState)
    (instr : String) : TaskRec × AgentState :=
  let ops := plan instr st.goals
  let t := dispatch out (startTask (mkTask st.nextTaskId instr ops))
  (t,
   { st with
     nextTaskId := st.nextTaskId + 1,
     learnedPatterns :=
       if isDegeneratePlan ops then st.learnedPatterns
       else st.learnedPatterns + 1,
     memory := st.memory.record
       { taskId := st.nextTaskId, summary := instr, timestamp := now } })

/-- One provider invocation as the Dispatcher runs it, in the error monad:
the underlying call may fail with a ProviderError, and the Dispatcher
catches it and records it as that operation's outcome instead of letting it
propagate. -/
def settleOp (out : Operation → OpOutcome) (o : Operation) :
    Except ErrKind (String × OpOutcome) :=
  match out o with
  | .ok v => .ok (o.provider, .ok v)
  | .error e => .ok (o.provider, .error e)

/-- All operations settled in order, in the error monad. -/
def settleAll (out : Operation → OpOutcome) :
    List Operation → Except ErrKind (List (String × OpOutcome))
  | [] => .ok []
  | o :: os =>
    match settleOp out o with
    | .error e => .error e
    | .ok r =>
      match settleAll out os with
      | .error e => .error e
      | .ok rs => .ok (r :: rs)

/-- The Orchestrator's `execute` written in the error monad, so that an
uncontained ProviderError would surface as an `Except.error` to the caller. -/
def executeInstrE (out : Operation → OpOutcome) (now : Nat) (st : AgentState)
    (instr : String) : Except ErrKind (TaskRec × AgentState) :=
  let ops := plan instr st.goals
  let t0 := startTask (mkTask st.nextTaskId instr ops)
  match settleAll out ops with
  | .error e => .error e
  | .ok rs =>
    .ok ({ t0 with
           results := rs,
           status :=
             if ops.any (fun o => okE (out o)) then .completed else .failed },
         { st with
           nextTaskId := st.nextTaskId + 1,
           learnedPatterns :=
             if isDegeneratePlan ops then st.learnedPatterns
             else st.learnedPatterns + 1,
           memory := st.memory.record
             { taskId := st.nextTaskId, summary := instr, timestamp := now } })

/-- Modelled from the spec: the shared scheduling state of sections 4.6
and 5 — the Orchestrator's task-concurrency limit and the count of tasks
currently running, together with the Dispatcher's independent global
call-concurrency budget and the count of provider calls in flight. -/
structure PoolState where
  maxConc : Nat
  runningTasks : Nat
  queuedTasks : Nat
  callBudget : Nat
  inFlightCalls : Nat
deriving DecidableEq, Repr

/-- Modelled from the spec: the scheduling transitions — a task may be
enqueued at any time; a queued task may start running only while fewer than
maxConc tasks are running; a running task may finish; the Dispatcher's call
semaphore is acquired and released independently, under its own budget. -/
inductive PoolStep : PoolState → PoolState → Prop where
  | enqueue (s : PoolState) :
      PoolStep s { s with queuedTasks := s.queuedTasks + 1 }
  | launch (s : PoolState) (h : s.runningTasks < s.maxConc)
      (hq : 0 < s.queuedTasks) :
      PoolStep s ⟨s.maxConc, s.runningTasks + 1, s.queuedTasks - 1,
        s.callBudget, s.inFlightCalls⟩
  | finish (s : PoolState) (h : 0 < s.runningTasks) :
      PoolStep s { s with runningTasks := s.runningTasks - 1 }
  | acquireCall (s : PoolState) (h : s.inFlightCalls < s.callBudget) :
      PoolStep s { s with inFlightCalls := s.inFlightCalls + 1 }
  | releaseCall (s : PoolState) (h : 0 < s.inFlightCalls) :
      PoolStep s { s with inFlightCalls := s.inFlightCalls - 1 }

/-- States reachable from an idle orchestrator with any task limit and any
call budget. -/
inductive PoolReachable : PoolState → Prop where
  | init (m b : Nat) : PoolReachable ⟨m, 0, 0, b, 0⟩
  | step {s s' : PoolState} : PoolReachable s → PoolStep s s' →
      PoolReachable s'

/-- An error a browser script can raise; dereferencing null raises a
TypeError. -/
inductive JsError where
  | typeError
deriving DecidableEq, Repr

/-- The mutable style state of a DOM element, as far as
website/main.js touches it in the header scroll listener. -/
structure ElemStyle where
  background : String
  backdropFilter : String
deriving DecidableEq, Repr

/-- Embedded from src/website/main.js: the scroll listener installed for the
element of class header.  The script stores the result of
document.querySelector without a null check and assigns
header.style.background and header.style.backdropFilter inside the listener,
so a page with no such element raises a TypeError on every scroll event;
otherwise the style is set according to whether the scroll position passed
100 pixels. -/
def headerScrollHandler (header : Option ElemStyle) (scrollY : Nat) :
    Except JsError ElemStyle :=
  match header with
  | none => .error .typeError
  | some _ =>
    if 100 < scrollY then
      .ok { background := "rgba(26, 34, 51, 0.95)",
            backdropFilter := "blur(10px)" }
    else
      .ok { background := "var(--gradient-primary)",
            backdropFilter := "blur(10px)" }

/-- The elements of a page that website/main.js looks up at load time. -/
structure Page where
  header : Option ElemStyle
  ctaButton : Option ElemStyle
  hero : Option ElemStyle
  heroContent : Option ElemStyle

/-- Dereferencing an element reference from an installed handler: raises a
TypeError when the reference is null. -/
def elementDeref (el : Option ElemStyle) : Except JsError Unit :=
  match el with
  | none => .error .typeError
  | some _ => .ok ()

/-- Embedded from src/website/main.js: the cta-button, hero and hero-content
handlers are installed only behind an if-null guard, so each installed
handler holds a non-null element reference. -/
def guardedHandlerOutcomes (p : Page) : List (Except JsError Unit) :=
  (match p.ctaButton with
   | some e => [elementDeref (some e)]
   | none => []) ++
  (match p.hero with
   | some e => [elementDeref (some e)]
   | none => []) ++
  (match p.heroContent with
   | some e => [elementDeref (some e)]
   | none => [])

theorem memoryStore_record_cap (s : MemoryStore) (e : MemoryEntry) :
    (s.record e).cap = s.cap := by
  unfold MemoryStore.record
  split <;> rfl

theorem memoryStore_record_size_le (s : MemoryStore) (e : MemoryEntry)
    (h1 : 1 ≤ s.cap) (h : s.size ≤ s.cap) : (s.record e).size ≤ s.cap := by
  unfold MemoryStore.record
  split
  case isTrue hfull =>
    have hfull' : s.size = s.cap := by
      simpa using hfull
    simp only [MemoryStore.size, List.length_append, List.length_tail,
      List.length_cons, List.length_nil] at *
    omega
  case isFalse hnf =>
    have hne : s.size ≠ s.cap := by
      intro hc
      exact hnf (by simp [hc])
    simp only [MemoryStore.size, List.length_append, List.length_cons,
      List.length_nil] at *
    omega

theorem memoryStore_foldl_invariant (es : List MemoryEntry) :
    ∀ s : MemoryStore, 1 ≤ s.cap → s.size ≤ s.cap →
      (es.foldl MemoryStore.record s).cap = s.cap ∧
      (es.foldl MemoryStore.record s).size ≤ s.cap := by
  induction es with
  | nil => intro s _ h; exact ⟨rfl, h⟩
  | cons e es ih =>
    intro s h1 h
    have hc := memoryStore_record_cap s e
    have hs := memoryStore_record_size_le s e h1 h
    have := ih (s.record e) (by omega) (by omega)
    simp only [List.foldl_cons]
    omega

/-- Claim C2: over every sequence of record operations starting from an empty
Memory Store of capacity at least one, the store's size never exceeds the
capacity (memory_size); when record is called on a full store the evicted
entry is exactly the oldest (the head of the insertion-ordered entry list),
evicted before the new entry is appended; and the entries surviving a record
are a verbatim contiguous suffix of the old entries — no stored entry is ever
mutated after insertion. -/
theorem memory_store_bounded_fifo (cap : Nat) (es : List MemoryEntry)
    (e : MemoryEntry) (h1 : 1 ≤ cap) :
    ((es.foldl MemoryStore.record ⟨cap, []⟩).size ≤ cap) ∧
    (∀ s : MemoryStore, s.size = s.cap →
      (s.record e).entries = s.entries.tail ++ [e]) ∧
    (∀ s : MemoryStore, ∃ dropped kept,
      s.entries = dropped ++ kept ∧ (s.record e).entries = kept ++ [e]) := by
  refine ⟨?_, ?_, ?_⟩
  · have := memoryStore_foldl_invariant es ⟨cap, []⟩ h1 (by simp [MemoryStore.size])
    exact this.2
  · intro s hfull
    unfold MemoryStore.record
    simp [hfull]
  · intro s
    unfold MemoryStore.record
    split
    · exact ⟨s.entries.take 1, s.entries.tail, by
        constructor
        · rw [← List.drop_one]
          exact (List.take_append_drop 1 s.entries).symm
        · rfl⟩
    · exact ⟨[], s.entries, by simp⟩

/-- Witness for C2 at a concrete input: three records into a store of
capacity two never push the size above two. -/
theorem memory_store_bounded_fifo_witness :
    (([⟨1, "a", 0⟩, ⟨2, "b", 1⟩, ⟨3, "c", 2⟩] :
        List MemoryEntry).foldl MemoryStore.record ⟨2, []⟩).size ≤ 2 :=
  (memory_store_bounded_fifo 2 [⟨1, "a", 0⟩, ⟨2, "b", 1⟩, ⟨3, "c", 2⟩]
    ⟨4, "d", 3⟩ (by decide)).1

theorem retryFrom_attempts_le {V : Type} (att : Nat → Except ErrKind V)
    (base : Nat) : ∀ r i, (retryFrom att base i r).attempts ≤ r + 1 := by
  intro r
  induction r with
  | zero =>
    intro i
    unfold retryFrom
    match h : att i with
    | .ok v => simp [h]
    | .error e => simp [h]; split <;> simp
  | succ r ih =>
    intro i
    unfold retryFrom
    match h : att i with
    | .ok v => simp [h]
    | .error e =>
      simp only [h]
      split
      · have := ih (i + 1)
        simp
        omega
      · simp

theorem retryFrom_nonretriable {V : Type} (att : Nat → Except ErrKind V)
    (base : Nat) (r i : Nat) (e : ErrKind) (ha : att i = .error e)
    (hn : e.retriable = false) :
    retryFrom att base i r = ⟨.error e, 1, []⟩ := by
  cases r <;> (unfold retryFrom; simp [ha, hn])

theorem retryFrom_all_retriable {V : Type} (att : Nat → Except ErrKind V)
    (base : Nat)
    (hall : ∀ j, ∃ e, att j = Except.error e ∧ e.retriable = true) :
    ∀ r i, (retryFrom att base i r).result = .error .exhausted ∧
      (retryFrom att base i r).attempts = r + 1 := by
  intro r
  induction r with
  | zero =>
    intro i
    obtain ⟨e, ha, hr⟩ := hall i
    unfold retryFrom
    simp [ha, hr]
  | succ r ih =>
    intro i
    obtain ⟨e, ha, hr⟩ := hall i
    unfold retryFrom
    simp only [ha, hr, if_true]
    have := ih (i + 1)
    constructor
    · exact this.1
    · simp [this.2]

theorem retryFrom_delays_mono {V : Type} (att : Nat → Except ErrKind V)
    (base : Nat) (hb : 1 ≤ base) :
    ∀ r i, (∀ d ∈ (retryFrom att base i r).delays, base * 2 ^ i ≤ d) ∧
      List.Pairwise (· < ·) (retryFrom att base i r).delays := by
  intro r
  induction r with
  | zero =>
    intro i
    unfold retryFrom
    match h : att i with
    | .ok v => simp [h]
    | .error e => simp [h]; split <;> simp
  | succ r ih =>
    intro i
    unfold retryFrom
    match h : att i with
    | .ok v => simp [h]
    | .error e =>
      simp only [h]
      split
      · simp only
        obtain ⟨hlb, hpw⟩ := ih (i + 1)
        have hlt : base * 2 ^ i < base * 2 ^ (i + 1) := by
          have hpos : 0 < base * 2 ^ i :=
            Nat.mul_pos (by omega) (Nat.two_pow_pos i)
          have hdouble : base * 2 ^ (i + 1) = 2 * (base * 2 ^ i) := by ring
          omega
        constructor
        · intro d hd
          rcases List.mem_cons.mp hd with hd | hd
          · omega
          · have := hlb d hd
            omega
        · refine List.pairwise_cons.mpr ⟨?_, hpw⟩
          intro d hd
          have := hlb d hd
          omega
      · simp

/-- Claim C3: under the Provider Client retry policy, a call whose first
attempt fails with a non-retriable error makes exactly one attempt and
reports that error; every call makes at most maxRetries + 1 attempts; the
delays between consecutive attempts are strictly increasing (given a
positive base delay); and a call all of whose attempts fail with retriable
errors makes exactly maxRetries + 1 attempts and reports
ProviderError kind exhausted. -/
theorem provider_call_retry_policy {V : Type} (att : Nat → Except ErrKind V)
    (base maxRetries : Nat) (hb : 1 ≤ base) :
    (∀ e, att 0 = Except.error e → e.retriable = false →
      providerCall att base maxRetries = ⟨.error e, 1, []⟩) ∧
    (providerCall att base maxRetries).attempts ≤ maxRetries + 1 ∧
    List.Pairwise (· < ·) (providerCall att base maxRetries).delays ∧
    ((∀ j, ∃ e, att j = Except.error e ∧ e.retriable = true) →
      (providerCall att base maxRetries).result = .error .exhausted ∧
      (providerCall att base maxRetries).attempts = maxRetries + 1) := by
  refine ⟨?_, ?_, ?_, ?_⟩
  · intro e ha hn
    exact retryFrom_nonretriable att base maxRetries 0 e ha hn
  · exact retryFrom_attempts_le att base maxRetries 0
  · exact (retryFrom_delays_mono att base hb maxRetries 0).2
  · intro hall
    exact retryFrom_all_retriable att base hall maxRetries 0

/-- Witness for C3 at a concrete input: a provider whose every attempt times
out, with base delay 1 and two retries, exhausts after exactly three
attempts. -/
theorem provider_call_retry_policy_witness :
    (providerCall (fun _ => (Except.error .timeout : Except ErrKind String))
      1 2).result = .error .exhausted ∧
    (providerCall (fun _ => (Except.error .timeout : Except ErrKind String))
      1 2).attempts = 2 + 1 :=
  (provider_call_retry_policy (fun _ => Except.error .timeout) 1 2
    (by decide)).2.2.2 (fun _ => ⟨.timeout, rfl, rfl⟩)

/-- Claim C1: if at least one operation of a task succeeds the dispatched
task's status is completed regardless of how many sibling operations
errored; the status is failed exactly when every operation errored; and every
operation's outcome — the errors of failed operations alongside the
successful results — is present in the per-operation results. -/
theorem dispatcher_fail_soft (out : Operation → OpOutcome) (t : TaskRec) :
    ((∃ o ∈ t.operations, okE (out o) = true) →
      (dispatch out t).status = .completed) ∧
    ((dispatch out t).status = .failed ↔
      ∀ o ∈ t.operations, ∃ e, out o = Except.error e) ∧
    (∀ o ∈ t.operations, (o.provider, out o) ∈ (dispatch out t).results) := by
  refine ⟨?_, ?_, ?_⟩
  · intro hex
    have hany : t.operations.any (fun o => okE (out o)) = true :=
      List.any_eq_true.mpr (by
        obtain ⟨o, ho, hok⟩ := hex
        exact ⟨o, ho, hok⟩)
    simp [dispatch, hany]
  · constructor
    · intro hfail o ho
      by_cases hany : t.operations.any (fun o => okE (out o)) = true
      · simp [dispatch, hany] at hfail
      · have : okE (out o) = false := by
          by_contra hne
          exact hany (List.any_eq_true.mpr
            ⟨o, ho, by revert hne; cases okE (out o) <;> simp⟩)
        revert this
        cases h : out o with
        | ok v => simp [okE]
        | error e => exact fun _ => ⟨e, rfl⟩
    · intro hall
      have hany : t.operations.any (fun o => okE (out o)) = false := by
        rw [Bool.eq_false_iff]
        intro hc
        obtain ⟨o, ho, hok⟩ := List.any_eq_true.mp hc
        obtain ⟨e, he⟩ := hall o ho
        rw [he] at hok
        simp [okE] at hok
      simp [dispatch, hany]
  · intro o ho
    simp only [dispatch]
    exact List.mem_map.mpr ⟨o, ho, rfl⟩

/-- Witness for C1 at a concrete input: a task with one succeeding and one
erroring operation is completed. -/
theorem dispatcher_fail_soft_witness :
    (dispatch
      (fun o => if o.provider = "web_search" then Except.ok "hits"
                else Except.error .timeout)
      (mkTask 1 "search"
        [⟨"web_search", "search", []⟩, ⟨"github", "search_repositories", []⟩])
      ).status = .completed :=
  (dispatcher_fail_soft
    (fun o => if o.provider = "web_search" then Except.ok "hits"
              else Except.error .timeout)
    (mkTask 1 "search"
      [⟨"web_search", "search", []⟩,
       ⟨"github", "search_repositories", []⟩])).1
    ⟨⟨"web_search", "search", []⟩, by simp [mkTask], by simp [okE]⟩

theorem dispatch_status_isTerminal (out : Operation → OpOutcome)
    (t : TaskRec) : (dispatch out t).status.isTerminal = true := by
  simp only [dispatch]
  split <;> rfl

/-- Claim C5: a task's status is terminal (completed or failed) if and only
if every one of its operations has settled, i.e. has an outcome recorded.
The hypothesis that the operation list is nonempty is guaranteed by the
planner, which always emits at least the processed post-step. -/
theorem task_terminal_iff_settled (p : TaskPhase) (h : p.opsOf ≠ []) :
    p.snapshot.status.isTerminal = true ↔ allSettled p.snapshot = true := by
  cases p with
  | created id d ops =>
    simp only [TaskPhase.opsOf] at h
    constructor
    · intro hc
      simp [TaskPhase.snapshot, mkTask, TaskStatus.isTerminal] at hc
    · intro hc
      exfalso
      simp [TaskPhase.snapshot, mkTask, allSettled] at hc
      exact h (List.length_eq_zero.mp hc.symm)
  | started id d ops =>
    simp only [TaskPhase.opsOf] at h
    constructor
    · intro hc
      simp [TaskPhase.snapshot, mkTask, startTask, TaskStatus.isTerminal] at hc
    · intro hc
      exfalso
      simp [TaskPhase.snapshot, mkTask, startTask, allSettled] at hc
      exact h (List.length_eq_zero.mp hc.symm)
  | dispatched out id d ops =>
    constructor
    · intro _
      simp [TaskPhase.snapshot, mkTask, startTask, dispatch, allSettled]
    · intro _
      exact dispatch_status_isTerminal out (startTask (mkTask id d ops))

/-- Witness for C5 at a concrete input: a dispatched single-operation task is
terminal and fully settled. -/
theorem task_terminal_iff_settled_witness :
    (TaskPhase.dispatched (fun _ => Except.ok "done") 7 "go"
      [⟨"agent", "processed", []⟩]).snapshot.status.isTerminal = true ↔
    allSettled (TaskPhase.dispatched (fun _ => Except.ok "done") 7 "go"
      [⟨"agent", "processed", []⟩]).snapshot = true :=
  task_terminal_iff_settled
    (TaskPhase.dispatched (fun _ => Except.ok "done") 7 "go"
      [⟨"agent", "processed", []⟩]) (by simp [TaskPhase.opsOf])

/-- Claim C6: every event moves a task's status only along the transitions
pending → running → completed/failed (or leaves it unchanged), and a task
whose status is terminal is never changed again by any subsequent sequence
of events — terminal states are final and a settled task is never
re-dispatched. -/
theorem task_lifecycle_transitions (t : TaskRec) (e : OrchEvent)
    (evs : List OrchEvent) :
    allowedEdge t.status (taskStep t e).status ∧
    (t.status.isTerminal = true → evs.foldl taskStep t = t) := by
  constructor
  · cases e with
    | start =>
      simp only [taskStep, startTask]
      split
      case isTrue hp => exact Or.inr (Or.inl ⟨hp, rfl⟩)
      case isFalse _ => exact Or.inl rfl
    | settle out =>
      simp only [taskStep]
      split
      case isTrue hr =>
        simp only [dispatch]
        split
        · exact Or.inr (Or.inr ⟨hr, Or.inl rfl⟩)
        · exact Or.inr (Or.inr ⟨hr, Or.inr rfl⟩)
      case isFalse _ => exact Or.inl rfl
  · intro hterm
    have hstep : ∀ e, taskStep t e = t := by
      intro e
      cases e with
      | start =>
        simp only [taskStep, startTask]
        split
        case isTrue hp =>
          rw [hp] at hterm
          simp [TaskStatus.isTerminal] at hterm
        case isFalse _ => rfl
      | settle out =>
        simp only [taskStep]
        split
        case isTrue hr =>
          rw [hr] at hterm
          simp [TaskStatus.isTerminal] at hterm
        case isFalse _ => rfl
    induction evs with
    | nil => rfl
    | cons e es ih =>
      simp only [List.foldl_cons, hstep e]
      exact ih

/-- Witness for C6 at a concrete input: a completed task is untouched by a
further start and settle. -/
theorem task_lifecycle_transitions_witness :
    [OrchEvent.start, OrchEvent.settle (fun _ => Except.ok "x")].foldl
      taskStep
      { id := 3, description := "d", operations := [],
        results := [("agent", Except.ok "y")], status := .completed } =
    { id := 3, description := "d", operations := [],
      results := [("agent", Except.ok "y")], status := .completed } :=
  (task_lifecycle_transitions
    { id := 3, description := "d", operations := [],
      results := [("agent", Except.ok "y")], status := .completed }
    OrchEvent.start
    [OrchEvent.start, OrchEvent.settle (fun _ => Except.ok "x")]).2 rfl

theorem settleOp_ok (out : Operation → OpOutcome) (o : Operation) :
    settleOp out o = .ok (o.provider, out o) := by
  unfold settleOp
  match h : out o with
  | .ok v => simp [h]
  | .error e => simp [h]

theorem settleAll_ok (out : Operation → OpOutcome) (ops : List Operation) :
    settleAll out ops = .ok (ops.map (fun o => (o.provider, out o))) := by
  induction ops with
  | nil => rfl
  | cons o os ih =>
    unfold settleAll
    rw [settleOp_ok, ih]
    simp

/-- Claim C4: for every instruction, the Orchestrator's execute returns a
settled Task snapshot and never surfaces an error to the caller — the
error-monad rendition always returns `Except.ok` of exactly the snapshot the
plain execute produces — and every ProviderError arising during dispatch is
contained in that task's per-operation results. -/
theorem execute_never_throws (out : Operation → OpOutcome) (now : Nat)
    (st : AgentState) (instr : String) :
    executeInstrE out now st instr =
      Except.ok (executeInstr out now st instr) ∧
    (∀ o ∈ plan instr st.goals, ∀ e, out o = Except.error e →
      (o.provider, Except.error e) ∈ (executeInstr out now st instr).1.results)
    := by
  constructor
  · simp only [executeInstrE, executeInstr, settleAll_ok, dispatch, startTask,
      mkTask]
    rfl
  · intro o ho e he
    have := (dispatcher_fail_soft out
      (startTask (mkTask st.nextTaskId instr (plan instr st.goals)))).2.2 o
      (by simpa [startTask, mkTask] using ho)
    rw [he] at this
    exact this

/-- Witness for C4 at a concrete input: a run in which the only provider
errors still returns ok, with the error contained in the task's results. -/
theorem execute_never_throws_witness :
    executeInstrE (fun _ => Except.error .timeout) 0
      { running := true, goals := [], taskQueue := [], providers := [],
        memory := ⟨10, []⟩, learnedPatterns := 0, nextTaskId := 1 } "hello" =
    Except.ok (executeInstr (fun _ => Except.error .timeout) 0
      { running := true, goals := [], taskQueue := [], providers := [],
        memory := ⟨10, []⟩, learnedPatterns := 0, nextTaskId := 1 } "hello")
    :=
  (execute_never_throws (fun _ => Except.error .timeout) 0
    { running := true, goals := [], taskQueue := [], providers := [],
      memory := ⟨10, []⟩, learnedPatterns := 0, nextTaskId := 1 } "hello").1

/-- Claim C7: the planner is total — for every instruction and goal list it
returns a nonempty operation sequence ending in the generic processed
post-step; an instruction matching no recognition rule yields exactly the
degenerate fallback; and planning inside the Orchestrator's execute leaves
the goal list unchanged (goals are only inspected, never mutated). -/
theorem planner_total_fallback (instr : String) (goals : List Goal) :
    plan instr goals ≠ [] ∧
    (plan instr goals).getLast? = some processedOp ∧
    (recognizedOps instr = [] → plan instr goals = [processedOp]) ∧
    (∀ out now st instr2,
      (executeInstr out now st instr2).2.goals = st.goals) := by
  refine ⟨?_, ?_, ?_, ?_⟩
  · simp [plan]
  · simp only [plan]
    exact List.getLast?_concat _
  · intro hnone
    simp [plan, hnone]
  · intro out now st instr2
    rfl

/-- Witness for C7 at a concrete input: an unrecognized instruction plans to
exactly the fallback post-step. -/
theorem planner_total_fallback_witness :
    plan "hello" [] = [processedOp] :=
  (planner_total_fallback "hello" []).2.2.1 (by decide)

/-- Claim C9: the status snapshot consists of exactly the running flag, goal
list, queue length, enabled provider names, memory size and learned-patterns
count; executing an instruction increments the learned-patterns counter
exactly when the planner matched a non-degenerate rule; and the counter is
never read back by planning — the task produced by execute is unchanged
under any value of the counter. -/
theorem status_snapshot_spec (out : Operation → OpOutcome) (now : Nat)
    (st : AgentState) (instr : String) :
    statusSnapshot st =
      { running := st.running,
        goals := st.goals.map Goal.description,
        taskQueueLength := st.taskQueue.length,
        connectedServers := (st.providers.filter ProviderConfig.enabled).map
          ProviderConfig.name,
        memorySize := st.memory.size,
        learnedPatterns := st.learnedPatterns } ∧
    (executeInstr out now st instr).2.learnedPatterns =
      (if isDegeneratePlan (plan instr st.goals) then st.learnedPatterns
       else st.learnedPatterns + 1) ∧
    (∀ n, (executeInstr out now { st with learnedPatterns := n } instr).1 =
      (executeInstr out now st instr).1) := by
  exact ⟨rfl, rfl, fun n => rfl⟩

/-- Claim C8: in every reachable scheduling state, at most
max_concurrent_tasks tasks are simultaneously running; the bound is enforced
by the launch guard alone and holds for every value of the Dispatcher's
independent call-concurrency budget and in-flight call count. -/
theorem orchestrator_concurrency_bound (s : PoolState)
    (h : PoolReachable s) : s.runningTasks ≤ s.maxConc := by
  induction h with
  | init m b => exact Nat.zero_le m
  | step hr hs ih =>
    cases hs with
    | enqueue => exact ih
    | launch hlt hq => exact hlt
    | finish hpos => exact Nat.le_trans (Nat.sub_le _ _) ih
    | acquireCall hlt => exact ih
    | releaseCall hpos => exact ih

/-- Witness for C8 at a concrete input: after enqueuing and launching one
task under a limit of five, the running count respects the bound. -/
theorem orchestrator_concurrency_bound_witness :
    (⟨5, 1, 0, 8, 0⟩ : PoolState).runningTasks ≤
      (⟨5, 1, 0, 8, 0⟩ : PoolState).maxConc :=
  orchestrator_concurrency_bound ⟨5, 1, 0, 8, 0⟩
    (PoolReachable.step
      (PoolReachable.step (PoolReachable.init 5 8)
        (PoolStep.enqueue ⟨5, 0, 0, 8, 0⟩))
      (PoolStep.launch ⟨5, 0, 1, 8, 0⟩ (by decide) (by decide)))

/-- Claim C10: in website/main.js the header scroll listener dereferences
the header lookup without a null check while the cta-button, hero and
hero-content handlers are guarded; hence on every page containing a header
element every scroll event is handled without error, on every page lacking
one every scroll event raises a TypeError in the header listener, and the
guarded handlers never raise. -/
theorem website_header_null_deref (p : Page) (y : Nat) :
    (p.header.isSome = true →
      ∃ s, headerScrollHandler p.header y = Except.ok s) ∧
    (p.header = none →
      headerScrollHandler p.header y = Except.error JsError.typeError) ∧
    (∀ r ∈ guardedHandlerOutcomes p, r = Except.ok ()) := by
  refine ⟨?_, ?_, ?_⟩
  · intro hs
    match hh : p.header with
    | none => rw [hh] at hs; simp at hs
    | some st =>
      by_cases hy : 100 < y
      · exact ⟨⟨"rgba(26, 34, 51, 0.95)", "blur(10px)"⟩, by
          simp [headerScrollHandler, hh, hy]⟩
      · exact ⟨⟨"var(--gradient-primary)", "blur(10px)"⟩, by
          simp [headerScrollHandler, hh, hy]⟩
  · intro hn
    rw [hn]
    rfl
  · intro r hr
    unfold guardedHandlerOutcomes at hr
    rcases p with ⟨hd, cta, hero, hc⟩
    cases cta <;> cases hero <;> cases hc <;>
      simp [elementDeref] at hr <;>
      simp_all [elementDeref]

/-- Witness for C10 at a concrete input: a page with no header element
raises a TypeError on a scroll event, while its guarded hero handler does
not exist to raise. -/
theorem website_header_null_deref_witness :
    headerScrollHandler (Page.mk none none none none).header 0 =
      Except.error JsError.typeError :=
  (website_header_null_deref (Page.mk none none none none) 0).2.1 rfl

end SteelStratus
